import Mathlib

/-!
Shallow embedding of `src/lib/MotorControl/MotorControl.c` (BLDC motor
control module) and verification of its specification claims.

The C module keeps three global variables (`currentSpeed : uint16_t`,
`isRunning : uint8_t`, `pwmDutyCycle : uint16_t`) and drives three PWM
phase outputs.  We model the globals together with the last value written
to each phase pin as a `MotorState`, hardware reads of the three Hall
sensor pins as a `HallInput`, and each C function as a state transformer.
Machine integers are modelled as `Nat`; the only places C integer width
matters are noted at the definitions (all intermediate values fit
comfortably inside `int`/`uint16_t`, which the invariant theorems make
precise).
-/

namespace MotorControl

/-- `MOTOR_MAX_RPM` from MotorControl.h. -/
def MOTOR_MAX_RPM : Nat := 5000

/-- `PWM_RANGE` from MotorControl.h. -/
def PWM_RANGE : Nat := 1024

/-- One row of the commutation table: the `{Phase_A, Phase_B, Phase_C}`
energization triple (`uint8_t` values, 0 = off, nonzero = driven). -/
structure PhasePattern where
  a : Nat
  b : Nat
  c : Nat
deriving DecidableEq, Repr

/-- `commutationTable[8][3]` from MotorControl.c, indexed by the 3-bit
Hall state.  Transcribed row for row from the source. -/
def commutationTable (hallState : Fin 8) : PhasePattern :=
  match hallState with
  | 0 => ⟨0, 0, 0⟩
  | 1 => ⟨1, 0, 0⟩
  | 2 => ⟨0, 1, 0⟩
  | 3 => ⟨1, 1, 0⟩
  | 4 => ⟨0, 0, 1⟩
  | 5 => ⟨1, 0, 1⟩
  | 6 => ⟨0, 1, 1⟩
  | 7 => ⟨0, 0, 0⟩

/-- The module state: the three globals of MotorControl.c plus the value
last written (`softPwmWrite`) to each phase pin. -/
structure MotorState where
  currentSpeed : Nat
  isRunning : Nat
  pwmDutyCycle : Nat
  phaseA : Nat
  phaseB : Nat
  phaseC : Nat
deriving DecidableEq, Repr

/-- One sample of the three Hall sensor pins (`digitalRead` returns 0 or 1). -/
structure HallInput where
  a : Fin 2
  b : Fin 2
  c : Fin 2
deriving DecidableEq, Repr

/-- `hallState |= digitalRead(HALL_A_PIN) << 2; ... << 1; ...` — the 3-bit
Hall code assembled in `updateCommutation`. -/
def hallCode (h : HallInput) : Fin 8 :=
  ⟨4 * h.a.val + 2 * h.b.val + h.c.val, by
    have ha := h.a.isLt
    have hb := h.b.isLt
    have hc := h.c.isLt
    omega⟩

/-- `updateCommutation()` from MotorControl.c: returns immediately when
`!isRunning`; otherwise reads the Hall pins, looks the code up in
`commutationTable`, and writes `pattern[i] ? pwmDutyCycle : 0` to each
phase pin. -/
def updateCommutation (hall : HallInput) (s : MotorState) : MotorState :=
  if s.isRunning = 0 then s
  else
    let p := commutationTable (hallCode hall)
    { s with
      phaseA := if p.a ≠ 0 then s.pwmDutyCycle else 0
      phaseB := if p.b ≠ 0 then s.pwmDutyCycle else 0
      phaseC := if p.c ≠ 0 then s.pwmDutyCycle else 0 }

/-- `motorSetSpeed(uint16_t rpm)` from MotorControl.c: clamps `rpm` to
`MOTOR_MAX_RPM`, stores it, computes `(rpm * PWM_RANGE) / MOTOR_MAX_RPM`
(C `int` arithmetic; the product is at most 5 120 000, well inside
`int`), and calls `updateCommutation` when the motor is running.  `rpm`
here is the value received by the `uint16_t` parameter. -/
def motorSetSpeed (rpm : Nat) (hall : HallInput) (s : MotorState) : MotorState :=
  let r := if rpm > MOTOR_MAX_RPM then MOTOR_MAX_RPM else rpm
  let s' := { s with currentSpeed := r, pwmDutyCycle := r * PWM_RANGE / MOTOR_MAX_RPM }
  if s'.isRunning ≠ 0 then updateCommutation hall s' else s'

/-- `motorStop()` from MotorControl.c: clears `isRunning` and writes 0 to
all three phase pins.  `currentSpeed` and `pwmDutyCycle` are untouched. -/
def motorStop (s : MotorState) : MotorState :=
  { s with isRunning := 0, phaseA := 0, phaseB := 0, phaseC := 0 }

/-- `motorStart()` from MotorControl.c: sets `isRunning = 1` and calls
`updateCommutation`. -/
def motorStart (hall : HallInput) (s : MotorState) : MotorState :=
  updateCommutation hall { s with isRunning := 1 }

/-- `motorGetSpeed()` from MotorControl.c. -/
def motorGetSpeed (s : MotorState) : Nat := s.currentSpeed

/-- State after `motorInit()`: the globals are zero-initialized,
`softPwmCreate(pin, 0, PWM_RANGE)` starts every phase at 0, and
`motorStop()` is called. -/
def initState : MotorState := ⟨0, 0, 0, 0, 0, 0⟩

/-- An external call into the module's API (the hall argument is the
sensor sample the call would read if it reaches `updateCommutation`). -/
inductive Op where
  | setSpeed (rpm : Nat) (hall : HallInput)
  | start (hall : HallInput)
  | stop
  | update (hall : HallInput)
deriving DecidableEq, Repr

/-- Whether an `Op` is a `motorStart` call. -/
def Op.isStart : Op → Bool
  | .start _ => true
  | _ => false

/-- Execute one API call.  A `setSpeed` argument is first reduced modulo
`2^16`, modelling C's conversion of the caller's value to the `uint16_t`
parameter. -/
def applyOp (s : MotorState) : Op → MotorState
  | .setSpeed rpm hall => motorSetSpeed (rpm % 65536) hall s
  | .start hall => motorStart hall s
  | .stop => motorStop s
  | .update hall => updateCommutation hall s

/-- Execute a sequence of API calls. -/
def runOps (s : MotorState) (ops : List Op) : MotorState := ops.foldl applyOp s

/-- Number of phases a pattern drives (C truthiness: nonzero = driven). -/
def driveCount (p : PhasePattern) : Nat :=
  (if p.a ≠ 0 then 1 else 0) + (if p.b ≠ 0 then 1 else 0) + (if p.c ≠ 0 then 1 else 0)

/-- The six commutation-table rows for the valid Hall codes 1..6. -/
def validPatterns : List PhasePattern :=
  [commutationTable 1, commutationTable 2, commutationTable 3,
   commutationTable 4, commutationTable 5, commutationTable 6]

/-- Hall sample 0/0/0 — code 0, an invalid state. -/
def hallLow : HallInput := ⟨0, 0, 0⟩

/-- Hall sample 1/1/1 — code 7, an invalid state. -/
def hallHigh : HallInput := ⟨1, 1, 1⟩

/-- Hall sample 0/0/1 — code 1, a valid state. -/
def hallS1 : HallInput := ⟨0, 0, 1⟩

/-- A representative running state: `motorSetSpeed(1000)` then
`motorStart()` from the initialized state (duty 204, phase A driven). -/
def runningState : MotorState := motorStart hallS1 (motorSetSpeed 1000 hallS1 initState)

/-- `updateCommutation` never changes `currentSpeed`. -/
theorem updateCommutation_currentSpeed (hall : HallInput) (s : MotorState) :
    (updateCommutation hall s).currentSpeed = s.currentSpeed := by
  unfold updateCommutation
  split <;> rfl

/-- `updateCommutation` never changes `pwmDutyCycle`. -/
theorem updateCommutation_pwmDutyCycle (hall : HallInput) (s : MotorState) :
    (updateCommutation hall s).pwmDutyCycle = s.pwmDutyCycle := by
  unfold updateCommutation
  split <;> rfl

/-- `updateCommutation` never changes `isRunning`. -/
theorem updateCommutation_isRunning (hall : HallInput) (s : MotorState) :
    (updateCommutation hall s).isRunning = s.isRunning := by
  unfold updateCommutation
  split <;> rfl

/-- On a running state, an all-low Hall sample (code 0) makes
`updateCommutation` write 0 to every phase and touch nothing else. -/
theorem update_hallLow_running (t : MotorState) (h : t.isRunning ≠ 0) :
    updateCommutation hallLow t = { t with phaseA := 0, phaseB := 0, phaseC := 0 } := by
  unfold updateCommutation
  rw [if_neg h]
  rfl

/-- On a running state, an all-high Hall sample (code 7) makes
`updateCommutation` write 0 to every phase and touch nothing else. -/
theorem update_hallHigh_running (t : MotorState) (h : t.isRunning ≠ 0) :
    updateCommutation hallHigh t = { t with phaseA := 0, phaseB := 0, phaseC := 0 } := by
  unfold updateCommutation
  rw [if_neg h]
  rfl

/-- On a running state, Hall code 1 drives phase A at the current duty
cycle and leaves phases B and C off. -/
theorem update_hallS1_running (t : MotorState) (h : t.isRunning ≠ 0) :
    updateCommutation hallS1 t =
      { t with phaseA := t.pwmDutyCycle, phaseB := 0, phaseC := 0 } := by
  unfold updateCommutation
  rw [if_neg h]
  rfl

/-- Claim C1 counterexample: Hall code 1's pattern `{1,0,0}` drives exactly
one phase, not the two the claim requires. -/
theorem C1_counterexample :
    driveCount (commutationTable 1) = 1 ∧ driveCount (commutationTable 1) ≠ 2 := by
  decide

/-- Claim C1 (amended): the six valid-sector patterns are pairwise
distinct, but they drive one or two phases — codes 1, 2, 4 drive exactly
one phase and codes 3, 5, 6 drive exactly two (the pattern is the binary
expansion of the code), so at least one phase is always off but it is not
the case that exactly two are always driven. -/
theorem C1_amended :
    validPatterns.Nodup ∧ validPatterns.map driveCount = [1, 1, 2, 1, 2, 2] := by
  decide

/-- Claim C2 counterexample: the code has no decode step and no
`InvalidCode` fault.  Hall code 0 (and 7) is looked up in the table like
any other code, yields the all-off commutation pattern, and the motor
stays running — no fault value is produced anywhere. -/
theorem C2_counterexample :
    commutationTable (hallCode hallLow) = ⟨0, 0, 0⟩ ∧
    commutationTable (hallCode hallHigh) = ⟨0, 0, 0⟩ ∧
    updateCommutation hallLow runningState =
      { runningState with phaseA := 0, phaseB := 0, phaseC := 0 } ∧
    (updateCommutation hallLow runningState).isRunning = 1 := by
  decide

/-- Claim C2 (amended): for all 8 possible Hall codes the code performs a
total table lookup instead of a decode-with-fault.  Exactly the codes
{0, 7} produce the all-off phase output and exactly the codes {1..6}
drive at least one phase; in every case the control state
(`currentSpeed`, `isRunning`, `pwmDutyCycle`) is unchanged and no fault
is signalled. -/
theorem C2_amended :
    ∀ a b c : Fin 2,
      (((hallCode ⟨a, b, c⟩).val = 0 ∨ (hallCode ⟨a, b, c⟩).val = 7) ↔
        updateCommutation ⟨a, b, c⟩ runningState =
          { runningState with phaseA := 0, phaseB := 0, phaseC := 0 }) ∧
      (updateCommutation ⟨a, b, c⟩ runningState).isRunning = runningState.isRunning ∧
      (updateCommutation ⟨a, b, c⟩ runningState).currentSpeed = runningState.currentSpeed ∧
      (updateCommutation ⟨a, b, c⟩ runningState).pwmDutyCycle = runningState.pwmDutyCycle := by
  decide

/-- Claim C3, evaluation at the failing input: starting the motor from the
initialized state (duty 0) and then calling `motorSetSpeed(5000)` moves
the duty cycle from 0 to 1024 — the full PWM range — inside a single
call; no rate limiting exists in the code. -/
theorem C3_code_eval :
    (motorStart hallS1 initState).pwmDutyCycle = 0 ∧
    (motorSetSpeed 5000 hallS1 (motorStart hallS1 initState)).pwmDutyCycle = PWM_RANGE ∧
    (motorSetSpeed 5000 hallS1 (motorStart hallS1 initState)).phaseA = PWM_RANGE := by
  decide

/-- Claim C4 counterexample: with the spec's scenario debounce count
N = 3, three consecutive invalid decodes (Hall code 0) leave the motor
running (`isRunning = 1`, no Faulted state exists in the code), and the
next valid decode immediately drives phase A again at the stored duty
cycle, which is nonzero — no fault was latched within N ticks. -/
theorem C4_counterexample :
    ((updateCommutation hallLow)^[3] runningState).isRunning = 1 ∧
    (updateCommutation hallS1 ((updateCommutation hallLow)^[3] runningState)).phaseA =
      runningState.pwmDutyCycle ∧
    runningState.pwmDutyCycle ≠ 0 := by
  decide

/-- Claim C4 (amended): the code keeps no consecutive-fault counter and
has no Faulted state.  Any number n ≥ 1 of consecutive invalid decodes on
a running state only zeroes the phase outputs for those ticks, leaving
`currentSpeed`, `isRunning` and `pwmDutyCycle` untouched, and a single
subsequent valid decode immediately resumes driving a phase at the stored
duty cycle. -/
theorem C4_amended (s : MotorState) (n : Nat) (hrun : s.isRunning ≠ 0) (hn : 1 ≤ n) :
    (updateCommutation hallLow)^[n] s =
      { s with phaseA := 0, phaseB := 0, phaseC := 0 } ∧
    (updateCommutation hallS1 ((updateCommutation hallLow)^[n] s)).phaseA =
      s.pwmDutyCycle := by
  have key : (updateCommutation hallLow)^[n] s =
      { s with phaseA := 0, phaseB := 0, phaseC := 0 } := by
    induction n with
    | zero => omega
    | succ m ih =>
      rcases Nat.eq_zero_or_pos m with hm | hm
      · subst hm
        simpa using update_hallLow_running s hrun
      · rw [Function.iterate_succ_apply', ih hm]
        exact update_hallLow_running { s with phaseA := 0, phaseB := 0, phaseC := 0 } hrun
  refine ⟨key, ?_⟩
  rw [key, update_hallS1_running { s with phaseA := 0, phaseB := 0, phaseC := 0 } hrun]

/-- Claim C4 (amended) witness at a concrete running state and n = 3. -/
theorem C4_amended_witness :
    (updateCommutation hallLow)^[3] runningState =
      { runningState with phaseA := 0, phaseB := 0, phaseC := 0 } :=
  (C4_amended runningState 3 (by decide) (by decide)).1

/-- Claim C5 counterexample: Hall codes 0 and 7 do reach the table, which
silently returns the all-off pattern for them; the resulting phase
outputs are identical to those of a deliberate `motorStop`, so a sensor
fault is indistinguishable from a stop at the outputs. -/
theorem C5_counterexample :
    commutationTable 0 = ⟨0, 0, 0⟩ ∧
    commutationTable 7 = ⟨0, 0, 0⟩ ∧
    (updateCommutation hallLow runningState).phaseA = (motorStop runningState).phaseA ∧
    (updateCommutation hallLow runningState).phaseB = (motorStop runningState).phaseB ∧
    (updateCommutation hallLow runningState).phaseC = (motorStop runningState).phaseC := by
  decide

/-- Claim C5 (amended): invalid Hall codes do reach the commutation-table
lookup; the lookup is a total function that returns the all-off entry for
codes 0 and 7 (there is no assertion), and on any running state
`updateCommutation` applies that pattern, producing the same phase
outputs as `motorStop` produces. -/
theorem C5_amended (s : MotorState) (h : s.isRunning ≠ 0) :
    commutationTable (hallCode hallLow) = ⟨0, 0, 0⟩ ∧
    commutationTable (hallCode hallHigh) = ⟨0, 0, 0⟩ ∧
    updateCommutation hallLow s = { s with phaseA := 0, phaseB := 0, phaseC := 0 } ∧
    updateCommutation hallHigh s = { s with phaseA := 0, phaseB := 0, phaseC := 0 } ∧
    (updateCommutation hallLow s).phaseA = (motorStop s).phaseA ∧
    (updateCommutation hallLow s).phaseB = (motorStop s).phaseB ∧
    (updateCommutation hallLow s).phaseC = (motorStop s).phaseC := by
  refine ⟨by decide, by decide, update_hallLow_running s h, update_hallHigh_running s h,
    ?_, ?_, ?_⟩ <;> rw [update_hallLow_running s h] <;> rfl

/-- Claim C5 (amended) witness at a concrete running state. -/
theorem C5_amended_witness :
    updateCommutation hallLow runningState =
      { runningState with phaseA := 0, phaseB := 0, phaseC := 0 } :=
  (C5_amended runningState (by decide)).2.2.1

/-- All three phase outputs are de-energized. -/
abbrev allOff (s : MotorState) : Prop := s.phaseA = 0 ∧ s.phaseB = 0 ∧ s.phaseC = 0

/-- Any API call other than `motorStart` preserves "stopped with all
phases off". -/
theorem stopped_step (t : MotorState) (op : Op) (ht : t.isRunning = 0 ∧ allOff t)
    (hop : op.isStart = false) :
    (applyOp t op).isRunning = 0 ∧ allOff (applyOp t op) := by
  cases op with
  | setSpeed rpm hall =>
      simp only [applyOp, motorSetSpeed]
      rw [if_neg]
      · exact ⟨ht.1, ht.2.1, ht.2.2.1, ht.2.2.2⟩
      · simp [ht.1]
  | start hall => simp [Op.isStart] at hop
  | stop => exact ⟨rfl, rfl, rfl, rfl⟩
  | update hall =>
      simp only [applyOp, updateCommutation]
      rw [if_pos ht.1]
      exact ht

/-- Running any sequence of non-`motorStart` calls preserves "stopped with
all phases off". -/
theorem stopped_run (t : MotorState) (ops : List Op) (ht : t.isRunning = 0 ∧ allOff t)
    (h : ∀ op ∈ ops, op.isStart = false) :
    (runOps t ops).isRunning = 0 ∧ allOff (runOps t ops) := by
  induction ops generalizing t with
  | nil => exact ht
  | cons op rest ih =>
      exact ih (applyOp t op)
        (stopped_step t op ht (h op (List.mem_cons_self op rest)))
        (fun o ho => h o (List.mem_cons_of_mem op ho))

/-- Claim C6: after `motorStop`, `isRunning = 0` and all three phase
outputs are off, and they stay off across any subsequent sequence of
`motorSetSpeed`, `updateCommutation` and `motorStop` calls — that is,
until a `motorStart` occurs. -/
theorem C6_theorem (s : MotorState) (ops : List Op)
    (h : ∀ op ∈ ops, op.isStart = false) :
    (runOps (motorStop s) ops).isRunning = 0 ∧ allOff (runOps (motorStop s) ops) :=
  stopped_run (motorStop s) ops ⟨rfl, rfl, rfl, rfl⟩ h

/-- Claim C6 witness: a concrete stop followed by a speed command and a
commutation tick leaves everything off. -/
theorem C6_theorem_witness :
    (runOps (motorStop runningState)
        [Op.setSpeed 5000 hallS1, Op.update hallS1, Op.stop]).isRunning = 0 ∧
    allOff (runOps (motorStop runningState)
        [Op.setSpeed 5000 hallS1, Op.update hallS1, Op.stop]) :=
  C6_theorem runningState [Op.setSpeed 5000 hallS1, Op.update hallS1, Op.stop] (by decide)

/-- `motorSetSpeed` stores the clamped rpm. -/
theorem motorSetSpeed_currentSpeed (rpm : Nat) (hall : HallInput) (s : MotorState) :
    (motorSetSpeed rpm hall s).currentSpeed =
      if rpm > MOTOR_MAX_RPM then MOTOR_MAX_RPM else rpm := by
  simp only [motorSetSpeed]
  split
  · rw [updateCommutation_currentSpeed]
  · rfl

/-- `motorSetSpeed` stores the duty cycle computed from the clamped rpm. -/
theorem motorSetSpeed_pwmDutyCycle (rpm : Nat) (hall : HallInput) (s : MotorState) :
    (motorSetSpeed rpm hall s).pwmDutyCycle =
      (if rpm > MOTOR_MAX_RPM then MOTOR_MAX_RPM else rpm) * PWM_RANGE / MOTOR_MAX_RPM := by
  simp only [motorSetSpeed]
  split
  · rw [updateCommutation_pwmDutyCycle]
  · rfl

/-- `motorSetSpeed` never changes `isRunning`. -/
theorem motorSetSpeed_isRunning (rpm : Nat) (hall : HallInput) (s : MotorState) :
    (motorSetSpeed rpm hall s).isRunning = s.isRunning := by
  simp only [motorSetSpeed]
  split
  · rw [updateCommutation_isRunning]
  · rfl

/-- Claim C7: for any k with `MOTOR_MAX_RPM + k` representable in the
`uint16_t` parameter, `motorSetSpeed (MOTOR_MAX_RPM + k)` produces
exactly the state `motorSetSpeed MOTOR_MAX_RPM` produces (no error path
exists), and `motorGetSpeed` afterwards reports the clamped value
`MOTOR_MAX_RPM`. -/
theorem C7_theorem (k : Nat) (hall : HallInput) (s : MotorState)
    (h : MOTOR_MAX_RPM + k < 65536) :
    motorSetSpeed (MOTOR_MAX_RPM + k) hall s = motorSetSpeed MOTOR_MAX_RPM hall s ∧
    motorGetSpeed (motorSetSpeed (MOTOR_MAX_RPM + k) hall s) = MOTOR_MAX_RPM := by
  have hclamp : (if MOTOR_MAX_RPM + k > MOTOR_MAX_RPM then MOTOR_MAX_RPM
      else MOTOR_MAX_RPM + k) = MOTOR_MAX_RPM := by
    split <;> omega
  have hclamp0 : (if MOTOR_MAX_RPM > MOTOR_MAX_RPM then MOTOR_MAX_RPM
      else MOTOR_MAX_RPM) = MOTOR_MAX_RPM := by
    split <;> rfl
  constructor
  · simp only [motorSetSpeed, hclamp, hclamp0]
  · rw [motorGetSpeed, motorSetSpeed_currentSpeed, hclamp]

/-- Claim C7 witness at k = 123 on a concrete running state. -/
theorem C7_theorem_witness :
    motorSetSpeed (MOTOR_MAX_RPM + 123) hallS1 runningState =
      motorSetSpeed MOTOR_MAX_RPM hallS1 runningState ∧
    motorGetSpeed (motorSetSpeed (MOTOR_MAX_RPM + 123) hallS1 runningState) =
      MOTOR_MAX_RPM :=
  C7_theorem 123 hallS1 runningState (by decide)

/-- The spec's speed-to-duty formula:
`clamp(rpm, 0, MAX_RPM) * PWM_RANGE / MAX_RPM` with truncating division. -/
def specDuty (rpm : Nat) : Nat :=
  max 0 (min rpm MOTOR_MAX_RPM) * PWM_RANGE / MOTOR_MAX_RPM

/-- Claim C8: the duty cycle stored by `motorSetSpeed` equals the spec's
truncating formula `clamp(rpm, 0, MAX_RPM) * PWM_RANGE / MAX_RPM`, lies
in `[0, PWM_RANGE]`, and hits exactly `PWM_RANGE` at `rpm = MAX_RPM` and
0 at `rpm = 0`. -/
theorem C8_theorem (rpm : Nat) (hall : HallInput) (s : MotorState) :
    (motorSetSpeed rpm hall s).pwmDutyCycle = specDuty rpm ∧
    (motorSetSpeed rpm hall s).pwmDutyCycle ≤ PWM_RANGE ∧
    (motorSetSpeed MOTOR_MAX_RPM hall s).pwmDutyCycle = PWM_RANGE ∧
    (motorSetSpeed 0 hall s).pwmDutyCycle = 0 := by
  have hmax : (if rpm > MOTOR_MAX_RPM then MOTOR_MAX_RPM else rpm) =
      max 0 (min rpm MOTOR_MAX_RPM) := by
    split <;> omega
  have hbound : max 0 (min rpm MOTOR_MAX_RPM) ≤ MOTOR_MAX_RPM := by omega
  refine ⟨?_, ?_, ?_, ?_⟩
  · rw [motorSetSpeed_pwmDutyCycle, hmax, specDuty]
  · rw [motorSetSpeed_pwmDutyCycle, hmax]
    calc max 0 (min rpm MOTOR_MAX_RPM) * PWM_RANGE / MOTOR_MAX_RPM
        ≤ MOTOR_MAX_RPM * PWM_RANGE / MOTOR_MAX_RPM :=
          Nat.div_le_div_right (Nat.mul_le_mul_right PWM_RANGE hbound)
      _ = PWM_RANGE := by decide
  · rw [motorSetSpeed_pwmDutyCycle]
    decide
  · rw [motorSetSpeed_pwmDutyCycle]
    decide

/-- The reachable-state invariant of the module: speed is clamped, the
duty cycle matches the stored speed by the truncating conversion, lies in
the PWM range, and the C `int` product `currentSpeed * PWM_RANGE` never
overflows. -/
def Invariant (s : MotorState) : Prop :=
  s.currentSpeed ≤ MOTOR_MAX_RPM ∧ s.pwmDutyCycle ≤ PWM_RANGE ∧
  s.pwmDutyCycle = s.currentSpeed * PWM_RANGE / MOTOR_MAX_RPM ∧
  s.currentSpeed * PWM_RANGE < 2 ^ 31

/-- Every API call preserves the module invariant. -/
theorem invariant_step (t : MotorState) (op : Op) (h : Invariant t) :
    Invariant (applyOp t op) := by
  cases op with
  | setSpeed rpm hall =>
      have hs := motorSetSpeed_currentSpeed (rpm % 65536) hall t
      have hd := motorSetSpeed_pwmDutyCycle (rpm % 65536) hall t
      have hm : (if rpm % 65536 > MOTOR_MAX_RPM then MOTOR_MAX_RPM else rpm % 65536) ≤
          MOTOR_MAX_RPM := by split <;> omega
      refine ⟨?_, ?_, ?_, ?_⟩
      · rw [show applyOp t (Op.setSpeed rpm hall) = motorSetSpeed (rpm % 65536) hall t
          from rfl, hs]
        exact hm
      · rw [show applyOp t (Op.setSpeed rpm hall) = motorSetSpeed (rpm % 65536) hall t
          from rfl, hd]
        calc (if rpm % 65536 > MOTOR_MAX_RPM then MOTOR_MAX_RPM else rpm % 65536) *
              PWM_RANGE / MOTOR_MAX_RPM
            ≤ MOTOR_MAX_RPM * PWM_RANGE / MOTOR_MAX_RPM :=
              Nat.div_le_div_right (Nat.mul_le_mul_right PWM_RANGE hm)
          _ = PWM_RANGE := by decide
      · rw [show applyOp t (Op.setSpeed rpm hall) = motorSetSpeed (rpm % 65536) hall t
          from rfl, hd, hs]
      · rw [show applyOp t (Op.setSpeed rpm hall) = motorSetSpeed (rpm % 65536) hall t
          from rfl, hs]
        calc (if rpm % 65536 > MOTOR_MAX_RPM then MOTOR_MAX_RPM else rpm % 65536) *
              PWM_RANGE ≤ MOTOR_MAX_RPM * PWM_RANGE :=
              Nat.mul_le_mul_right PWM_RANGE hm
          _ < 2 ^ 31 := by decide
  | start hall =>
      obtain ⟨h1, h2, h3, h4⟩ := h
      refine ⟨?_, ?_, ?_, ?_⟩ <;>
        simp only [applyOp, motorStart, updateCommutation_currentSpeed,
          updateCommutation_pwmDutyCycle] <;>
        assumption
  | stop => exact ⟨h.1, h.2.1, h.2.2.1, h.2.2.2⟩
  | update hall =>
      obtain ⟨h1, h2, h3, h4⟩ := h
      refine ⟨?_, ?_, ?_, ?_⟩ <;>
        simp only [applyOp, updateCommutation_currentSpeed,
          updateCommutation_pwmDutyCycle] <;>
        assumption

/-- Claim C9: after any sequence of API calls from the initialized state,
`currentSpeed ∈ [0, MOTOR_MAX_RPM]`, `pwmDutyCycle ∈ [0, PWM_RANGE]`,
`pwmDutyCycle = currentSpeed * PWM_RANGE / MOTOR_MAX_RPM` with truncating
division, and the product `currentSpeed * PWM_RANGE` stays below `2^31`,
so the C `int` multiplication never overflows. -/
theorem C9_theorem (ops : List Op) : Invariant (runOps initState ops) := by
  suffices h : ∀ t, Invariant t → Invariant (runOps t ops) from
    h initState (by constructor <;> decide)
  induction ops with
  | nil => exact fun t ht => ht
  | cons op rest ih => exact fun t ht => ih (applyOp t op) (invariant_step t op ht)

/-- Claim C10: when `isRunning = 0`, `updateCommutation` is the identity
on the state — no phase write, no field change — and its result does not
depend on the Hall sample, so the sensors are never consulted. -/
theorem C10_theorem (s : MotorState) (hall hall' : HallInput) (h : s.isRunning = 0) :
    updateCommutation hall s = s ∧
    updateCommutation hall s = updateCommutation hall' s := by
  have k : ∀ hh : HallInput, updateCommutation hh s = s := by
    intro hh
    unfold updateCommutation
    rw [if_pos h]
  exact ⟨k hall, (k hall).trans (k hall').symm⟩

/-- Claim C10 witness at the initialized (stopped) state. -/
theorem C10_theorem_witness :
    updateCommutation hallLow initState = initState ∧
    updateCommutation hallLow initState = updateCommutation hallHigh initState :=
  C10_theorem initState hallLow hallHigh rfl

end MotorControl
